import Mathlib

/-
A shallow embedding of the MUSCLE3 compute-element runtime core
(src/libmuscle/python/libmuscle/compute_element.py) and of the manager's
peer-resolution protocol, together with theorems settling the frozen
claims about the natural-language specification.

Modelling conventions:
  * Python dicts become association lists with unique keys maintained by
    `alSet`; `del` on an absent key is the explicit error `Err.keyError`.
  * The Communicator (not part of the given sources; its contract is in
    spec section 4.2) is modelled from the spec: static port registry and
    `muscle_parameters_in` connectivity live in `InstanceConfig`;
    per-(port, slot) inbound queues live in the dynamic state. A receive
    on an empty queue blocks forever in Python; the model returns
    `Err.blocked`.
  * Python exceptions propagate while the object keeps its state, so each
    stateful operation returns `CEState × Except Err α`: the state as
    mutated so far, together with the result or the exception.
  * Payloads are collapsed to the three classes the code distinguishes:
    the ClosePort sentinel, a Configuration, and any other value.
-/

deriving instance DecidableEq for Except

namespace Muscle3

/-- Association-list lookup (Python `d[k]` / `k in d`). -/
def alGet {α β : Type} [DecidableEq α] : List (α × β) → α → Option β
  | [], _ => none
  | (k, v) :: rest, a => if k = a then some v else alGet rest a

/-- Association-list update (Python `d[k] = v`): replaces the first
binding of the key, or appends a fresh one. -/
def alSet {α β : Type} [DecidableEq α] : List (α × β) → α → β → List (α × β)
  | [], a, b => [(a, b)]
  | (k, v) :: rest, a, b =>
      if k = a then (a, b) :: rest else (k, v) :: alSet rest a b

/-- Association-list removal of the first binding of a key
(Python `del d[k]` after a successful membership test). -/
def alErase {α β : Type} [DecidableEq α] : List (α × β) → α → List (α × β)
  | [], _ => []
  | (k, v) :: rest, a => if k = a then rest else (k, v) :: alErase rest a

/-- The ymmsl Operator enumeration. -/
inductive Operator : Type
  | F_INIT
  | O_I
  | S
  | B
  | O_F
  | NONE
deriving DecidableEq

/-- Operators on which an instance sends. -/
def Operator.allows_sending : Operator → Bool
  | .O_I => true
  | .O_F => true
  | _ => false

/-- Operators on which an instance receives. -/
def Operator.allows_receiving : Operator → Bool
  | .F_INIT => true
  | .S => true
  | .B => true
  | _ => false

/-- The fixed iteration order over operator keys of the ports mapping. -/
def operatorKeys : List Operator :=
  [.F_INIT, .O_I, .S, .B, .O_F, .NONE]

/-- A parameter value; the claims only compare values for equality, so a
single scalar carrier is enough. -/
abbrev ParamValue := Int

/-- A Configuration: a mapping from setting name to value
(libmuscle.configuration.Configuration, a dict in the source). -/
structure Configuration : Type where
  entries : List (String × ParamValue)
deriving DecidableEq

/-- The empty Configuration (`Configuration()` in the source). -/
def Configuration.empty : Configuration := ⟨[]⟩

/-- `len(c)` for a Configuration. -/
def Configuration.size (c : Configuration) : Nat := c.entries.length

/-- `c[k]` lookup for a Configuration. -/
def Configuration.getVal (c : Configuration) (k : String) : Option ParamValue :=
  alGet c.entries k

/-- `c[k] = v` for a Configuration. -/
def Configuration.setVal (c : Configuration) (k : String) (v : ParamValue) :
    Configuration :=
  ⟨alSet c.entries k v⟩

/-- Python dict equality between two Configurations: the same keys bound
to the same values, regardless of insertion order. -/
def dictEq (a b : Configuration) : Bool :=
  a.entries.all (fun kv => b.getVal kv.1 = some kv.2) &&
    b.entries.all (fun kv => a.getVal kv.1 = some kv.2)

/-- A message payload, collapsed to the classes the compute element
distinguishes: the `_ClosePort` sentinel, a `Configuration`, or any
other serializable value. -/
inductive Payload : Type
  | closePort
  | config (c : Configuration)
  | value (v : Int)
deriving DecidableEq

/-- Whether a payload is the ClosePort sentinel
(`isinstance(data, _ClosePort)`). -/
def Payload.isClose : Payload → Bool
  | .closePort => true
  | _ => false

/-- A libmuscle Message. Timestamps are opaque to every claim, so they
are carried as integers. -/
structure Message : Type where
  timestamp : Int
  next_timestamp : Option Int
  data : Payload
  configuration : Option Configuration
deriving DecidableEq

/-- Port metadata as the compute element reads it from the communicator:
operator, vector-or-scalar, current length, connectivity. -/
structure Port : Type where
  operator : Operator
  is_vector : Bool
  length : Nat
  connected : Bool
deriving DecidableEq

/-- The errors the embedded code can raise.  `valueError` is the
ValueError of `__check_port`; all others except `keyError` and `blocked`
are RuntimeErrors of the source; `keyError` is Python's KeyError from
`del` on an absent key; `blocked` models a receive that would block
forever because no message is ever delivered there. -/
inductive Err : Type
  | valueError
  | protocolError
  | withParamsNoConfig
  | receiveTwice
  | notConnectedNoDefault
  | parallelUniverse
  | keyError
  | blocked
deriving DecidableEq

/-- Addressing key of an inbound queue: port name and optional slot. -/
abbrev QueueKey := String × Option Nat

/-- Static data of one compute element: the communicator's port registry
(never mutated after connect) and whether the implicit
`muscle_parameters_in` port is connected. -/
structure InstanceConfig : Type where
  ports : List (String × Port)
  params_in_connected : Bool
deriving DecidableEq

/-- Dynamic state of one compute element: the communicator's inbound
queues, the configuration store (base and overlay), the first-run flag
and the F_INIT pre-receive cache. -/
structure CEState : Type where
  queues : List (QueueKey × List Message)
  base : Configuration
  overlay : Configuration
  first_run : Bool
  f_init_cache : List (QueueKey × Message)
deriving DecidableEq

/-- The names of the ports associated with one operator, in registry
order (`Communicator.list_ports()[op]`). -/
def portsFor (cfg : InstanceConfig) (op : Operator) : List String :=
  (cfg.ports.filter (fun np => np.2.operator = op)).map Prod.fst

/-- `Communicator.list_ports()`: ports grouped by operator; operators
with no ports are not included. -/
def list_ports (cfg : InstanceConfig) : List (Operator × List String) :=
  (operatorKeys.map (fun op => (op, portsFor cfg op))).filter
    (fun ol => !ol.2.isEmpty)

/-- `Communicator.port_exists(name)`. -/
def port_exists (cfg : InstanceConfig) (name : String) : Bool :=
  (alGet cfg.ports name).isSome

/-- `ComputeElement.is_connected(port)`:
`communicator.get_port(port).is_connected()`. -/
def is_connected (cfg : InstanceConfig) (name : String) : Bool :=
  match alGet cfg.ports name with
  | some p => p.connected
  | none => false

/-- Modelled from the spec (section 4.2, Communicator.receive_message,
which is not among the given sources): if the port does not exist, fail;
if it is not connected, return the default if given and fail otherwise;
if it is connected, block until the message addressed to
`(port, slot)` is available and return it.  The implicit
`muscle_parameters_in` port always exists; its connectivity is the
`params_in_connected` flag. -/
def port_connected_opt (cfg : InstanceConfig) (name : String) : Option Bool :=
  if name = "muscle_parameters_in" then some cfg.params_in_connected
  else (alGet cfg.ports name).map Port.connected

/-- Modelled from the spec (section 4.2, continued): the receive
itself. -/
def comm_receive_message (cfg : InstanceConfig) (s : CEState) (name : String)
    (slot : Option Nat) (default : Option Message) :
    CEState × Except Err Message :=
  match port_connected_opt cfg name with
  | none => (s, .error .valueError)
  | some true =>
      match alGet s.queues (name, slot) with
      | some (m :: rest) =>
          ({ s with queues := alSet s.queues (name, slot) rest }, .ok m)
      | _ => (s, .error .blocked)
  | some false =>
      match default with
      | some d => (s, .ok d)
      | none => (s, .error .notConnectedNoDefault)

/-- Short-circuiting iteration of one stateful action over a list,
mirroring Python `for` loops in which an exception aborts the loop. -/
def runList {α : Type} (f : α → CEState → CEState × Except Err Unit) :
    List α → CEState → CEState × Except Err Unit
  | [], s => (s, .ok ())
  | a :: rest, s =>
      match f a s with
      | (s1, .ok _) => runList f rest s1
      | (s1, .error e) => (s1, .error e)

/-- The default message of `__receive_parameters`:
`Message(0.0, None, Configuration(), Configuration())`. -/
def default_parameters_message : Message :=
  ⟨0, none, .config Configuration.empty, some Configuration.empty⟩

/-- `__receive_parameters`: receive one message on `muscle_parameters_in`
with an empty-configuration default; ClosePort means no reuse, a
Configuration payload is merged over the attached configuration and
stored as the overlay, anything else is a protocol error.  The source's
unchecked `cast` assumes the wire invariant that a received message
always carries a configuration; a message violating it would crash the
merge loop in Python and is modelled as `valueError`. -/
def receive_parameters (cfg : InstanceConfig) (s : CEState) :
    CEState × Except Err Bool :=
  match comm_receive_message cfg s "muscle_parameters_in" none
      (some default_parameters_message) with
  | (s1, .error e) => (s1, .error e)
  | (s1, .ok message) =>
      match message.data with
      | .closePort => (s1, .ok false)
      | .config cfgData =>
          match message.configuration with
          | none => (s1, .error .valueError)
          | some attached =>
              let merged := cfgData.entries.foldl
                (fun acc kv => acc.setVal kv.1 kv.2) attached
              ({ s1 with overlay := merged }, .ok true)
      | .value _ => (s1, .error .protocolError)

/-- `__apply_overlay(message)`: set the local overlay from the message's
configuration if the store's overlay is empty and the message carries
one. -/
def apply_overlay (s : CEState) (message : Message) : CEState :=
  if s.overlay.size = 0 then
    match message.configuration with
    | some c => { s with overlay := c }
    | none => s
  else s

/-- `__check_compatibility(port_name, overlay)`: a received overlay that
differs from the store's current overlay is a parallel universe error;
no received overlay is fine. -/
def check_compatibility (s : CEState) (overlay : Option Configuration) :
    Except Err Unit :=
  match overlay with
  | none => .ok ()
  | some o => if dictEq s.overlay o then .ok () else .error .parallelUniverse

/-- The inner `pre_receive(port_name, slot)` of `__pre_receive_f_init`.
NOTE (faithful to the source): the communicator receive is
`self._communicator.receive_message(port_name)` — the slot is NOT
passed on, so the communicator is always asked for `(port_name, None)`;
the slot only selects the cache key.  When `apply_overlay` holds, the
message's configuration is afterwards stripped in place, which also
updates the cached entry (Python aliasing). -/
def pre_receive (cfg : InstanceConfig) (apply_ov : Bool) (name : String)
    (slot : Option Nat) (s : CEState) : CEState × Except Err Unit :=
  match comm_receive_message cfg s name none none with
  | (s1, .error e) => (s1, .error e)
  | (s1, .ok msg) =>
      let s2 := { s1 with f_init_cache := alSet s1.f_init_cache (name, slot) msg }
      if apply_ov then
        let s3 := apply_overlay s2 msg
        match check_compatibility s3 msg.configuration with
        | .error e => (s3, .error e)
        | .ok _ =>
            ({ s3 with f_init_cache :=
                (alSet s3.f_init_cache (name, slot)
                  { msg with configuration := none }) }, .ok ())
      else (s2, .ok ())

/-- One F_INIT port's share of `__pre_receive_f_init`: skip unconnected
ports; receive once for scalar ports; for vector ports receive slot 0
(which, per the source comment, is meant to yield the length) and then
slots `1 .. length-1`. -/
def pre_receive_port (cfg : InstanceConfig) (apply_ov : Bool) (name : String)
    (s : CEState) : CEState × Except Err Unit :=
  match alGet cfg.ports name with
  | none => (s, .error .valueError)
  | some port =>
      if !port.connected then (s, .ok ())
      else if !port.is_vector then pre_receive cfg apply_ov name none s
      else
        match pre_receive cfg apply_ov name (some 0) s with
        | (s1, .ok _) =>
            runList (fun slot => pre_receive cfg apply_ov name (some slot))
              ((List.range' 1 (port.length - 1)).map id) s1
        | (s1, .error e) => (s1, .error e)

/-- `__pre_receive_f_init(apply_overlay)`: clear the cache, then receive
on every connected F_INIT port and cache the messages. -/
def pre_receive_f_init (cfg : InstanceConfig) (apply_ov : Bool)
    (s : CEState) : CEState × Except Err Unit :=
  runList (pre_receive_port cfg apply_ov) (portsFor cfg .F_INIT)
    { s with f_init_cache := [] }

/-- The per-slot close events a single outgoing port produces: one per
slot `0 .. length-1` of a vector port, a single unslotted one for a
scalar port.  Modelled from the spec: `Communicator.close_port` sends
one ClosePort message on the given port and slot. -/
def close_port_events (name : String) (port : Port) : List QueueKey :=
  if port.is_vector then (List.range port.length).map (fun i => (name, some i))
  else [(name, none)]

/-- The close events of one registered outgoing port
(`port = get_port(port_name)` followed by the per-slot close calls). -/
def out_events (cfg : InstanceConfig) (name : String) : List QueueKey :=
  match alGet cfg.ports name with
  | some port => close_port_events name port
  | none => []

/-- One operator group of `__close_outgoing_ports`: all its ports'
close events when the operator allows sending, else nothing. -/
def out_group (cfg : InstanceConfig) (ol : Operator × List String) :
    List QueueKey :=
  if ol.1.allows_sending then (ol.2.map (out_events cfg)).flatten else []

/-- `__close_outgoing_ports`: a ClosePort send on every slot of every
port whose operator allows sending.  Returns the list of close events
handed to the communicator; sends do not alter instance state. -/
def close_outgoing_ports (cfg : InstanceConfig) : List QueueKey :=
  ((list_ports cfg).map (out_group cfg)).flatten

/-- The loop body of `__drain_incoming_port` on the already-fetched
queue: pop messages until one is a ClosePort (receiving at least once);
an exhausted queue means the receive blocks forever. -/
def drainList : List Message → Except Err (List Message)
  | [] => .error .blocked
  | m :: rest => if m.data.isClose then .ok rest else drainList rest

/-- `__drain_incoming_port(port_name)`: receive until ClosePort, at
least once, via unslotted receives. -/
def drain_incoming_port (cfg : InstanceConfig) (s : CEState) (name : String) :
    CEState × Except Err Unit :=
  match port_connected_opt cfg name with
  | none => (s, .error .valueError)
  | some false => (s, .error .notConnectedNoDefault)
  | some true =>
      match drainList ((alGet s.queues (name, none)).getD []) with
      | .ok rest => ({ s with queues := alSet s.queues (name, none) rest }, .ok ())
      | .error e =>
          ({ s with queues := alSet s.queues (name, none) [] }, .error e)

/-- `communicator.get_port(name).get_length()` for a registered port. -/
def registered_length (cfg : InstanceConfig) (name : String) : Nat :=
  match alGet cfg.ports name with
  | some port => port.length
  | none => 0

/-- One pass of `__drain_incoming_vector_port` over slots
`1 .. length-1` (slot 0 is handled by the caller's list). -/
def drain_slots (cfg : InstanceConfig) (name : String) :
    List Nat → CEState → CEState × Except Err Unit
  | [], s => (s, .ok ())
  | slot :: rest, s =>
      match comm_receive_message cfg s name (some slot) none with
      | (s1, .ok _) => drain_slots cfg name rest s1
      | (s1, .error e) => (s1, .error e)

/-- The repeat-whole-pass loop of `__drain_incoming_vector_port`,
structurally recursing on the slot-0 queue carried as a list: each pass
consumes the head of the slot-0 queue and one message from each slot
`1 .. length-1`, and the loop stops once a pass's slot-0 message is a
ClosePort. -/
def drain_vector_loop (cfg : InstanceConfig) (name : String) (len : Nat) :
    List Message → CEState → CEState × Except Err (List Message)
  | [], s => (s, .error .blocked)
  | m :: rest, s =>
      match drain_slots cfg name ((List.range' 1 (len - 1)).map id) s with
      | (s1, .ok _) =>
          if m.data.isClose then (s1, .ok rest)
          else drain_vector_loop cfg name len rest s1
      | (s1, .error e) => (s1, .error e)

/-- `__drain_incoming_vector_port(port_name)`: receive full vector
passes (slot 0 first, then slots `1 .. length-1`) until the slot-0
message of a pass is a ClosePort. -/
def drain_incoming_vector_port (cfg : InstanceConfig) (s : CEState)
    (name : String) : CEState × Except Err Unit :=
  match drain_vector_loop cfg name (registered_length cfg name)
      ((alGet s.queues (name, some 0)).getD [])
      { s with queues := alSet s.queues (name, some 0) [] } with
  | (s1, .ok rest) =>
      ({ s1 with queues := alSet s1.queues (name, some 0) rest }, .ok ())
  | (s1, .error e) => (s1, .error e)

/-- Python `del cache[(name, slot)]` for each listed slot, raising
KeyError on an absent key. -/
def del_cached_slots (name : String) :
    List Nat → List (QueueKey × Message) →
    List (QueueKey × Message) × Except Err Unit
  | [], cache => (cache, .ok ())
  | slot :: rest, cache =>
      match alGet cache (name, some slot) with
      | some _ => del_cached_slots name rest (alErase cache (name, some slot))
      | none => (cache, .error .keyError)

/-- `__drain_f_init_port(port_name)`, exactly as in the source: if the
cache holds `(name, None)`, remove it and scalar-drain unless it is a
ClosePort; else if the cache holds `(name, 0)`, remove it, then
`del` the cache entry of every slot `0 .. length-1` (note: slot 0 was
already removed), then scalar-drain unless the head was a ClosePort. -/
def drain_f_init_port (cfg : InstanceConfig) (s : CEState) (name : String) :
    CEState × Except Err Unit :=
  match alGet s.f_init_cache (name, none) with
  | some msg =>
      let s1 := { s with f_init_cache := alErase s.f_init_cache (name, none) }
      if !msg.data.isClose then drain_incoming_port cfg s1 name
      else (s1, .ok ())
  | none =>
      match alGet s.f_init_cache (name, some 0) with
      | some msg =>
          let s1 := { s with f_init_cache := alErase s.f_init_cache (name, some 0) }
          match del_cached_slots name
              ((List.range (registered_length cfg name)).map id)
              s1.f_init_cache with
          | (cache1, .ok _) =>
              let s2 := { s1 with f_init_cache := cache1 }
              if !msg.data.isClose then drain_incoming_port cfg s2 name
              else (s2, .ok ())
          | (cache1, .error e) => ({ s1 with f_init_cache := cache1 }, .error e)
      | none => (s, .ok ())

/-- The inner loop of `__close_incoming_ports` over one operator's
ports: skip unconnected ports, scalar-drain scalar ports, vector-drain
vector ports. -/
def close_incoming_one (cfg : InstanceConfig) (name : String)
    (s : CEState) : CEState × Except Err Unit :=
  match alGet cfg.ports name with
  | none => (s, .error .valueError)
  | some port =>
      if !port.connected then (s, .ok ())
      else if !port.is_vector then drain_incoming_port cfg s name
      else drain_incoming_vector_port cfg s name

/-- One operator group of `__close_incoming_ports`: F_INIT ports are
skipped (`pass` in the source); other receiving operators have each of
their connected ports drained. -/
def close_incoming_group (cfg : InstanceConfig)
    (ol : Operator × List String) (s : CEState) : CEState × Except Err Unit :=
  if ol.1 = .F_INIT then (s, .ok ())
  else if ol.1.allows_receiving then runList (close_incoming_one cfg) ol.2 s
  else (s, .ok ())

/-- `__close_incoming_ports`. -/
def close_incoming_ports (cfg : InstanceConfig) (s : CEState) :
    CEState × Except Err Unit :=
  runList (close_incoming_group cfg) (list_ports cfg) s

/-- `__close_ports`: close outgoing ports (pure send events, no state
change), then close incoming ports. -/
def close_ports (cfg : InstanceConfig) (s : CEState) :
    CEState × Except Err Unit :=
  close_incoming_ports cfg s

/-- Lines 106-118 of `reuse_instance`: the reuse decision given the
result of the parameters step.  If no F_INIT port is connected and
`muscle_parameters_in` is not connected, reuse exactly once; otherwise
any cached ClosePort forces no-reuse. -/
def reuse_decision (cfg : InstanceConfig) (do_reuse : Bool) (s : CEState) :
    Bool × CEState :=
  let f_init_not_connected :=
    (portsFor cfg .F_INIT).all (fun p => !is_connected cfg p)
  let no_parameters_in := !cfg.params_in_connected
  if f_init_not_connected && no_parameters_in then
    (s.first_run, { s with first_run := false })
  else
    (if s.f_init_cache.any (fun kv => kv.2.data.isClose) then false
     else do_reuse, s)

/-- `reuse_instance(apply_overlay)`: receive parameters, pre-receive
F_INIT, decide, and on a negative decision run the close protocol
(shutdown and deregistration are external effects without model
state). -/
def reuse_instance (cfg : InstanceConfig) (apply_ov : Bool) (s : CEState) :
    CEState × Except Err Bool :=
  match receive_parameters cfg s with
  | (s1, .error e) => (s1, .error e)
  | (s1, .ok do_reuse) =>
      match pre_receive_f_init cfg apply_ov s1 with
      | (s2, .error e) => (s2, .error e)
      | (s2, .ok _) =>
          let bs := reuse_decision cfg do_reuse s2
          if !bs.1 then
            match close_ports cfg bs.2 with
            | (s3, .error e) => (s3, .error e)
            | (s3, .ok _) => (s3, .ok false)
          else (bs.2, .ok true)

/-- `__receive_message(port_name, slot, default, with_parameters)`: the
common implementation of the two user-facing receives. -/
def receive_message_impl (cfg : InstanceConfig) (with_params : Bool)
    (name : String) (slot : Option Nat) (default : Option Message)
    (s : CEState) : CEState × Except Err Message :=
  if !port_exists cfg name then (s, .error .valueError)
  else
    match alGet cfg.ports name with
    | none => (s, .error .valueError)
    | some port =>
        if port.operator = .F_INIT then
          match alGet s.f_init_cache (name, slot) with
          | some msg =>
              let s1 := { s with f_init_cache := alErase s.f_init_cache (name, slot) }
              if with_params && (msg.configuration matches none) then
                (s1, .error .withParamsNoConfig)
              else (s1, .ok msg)
          | none =>
              if port.connected then (s, .error .receiveTwice)
              else
                match default with
                | some d => (s, .ok d)
                | none => (s, .error .notConnectedNoDefault)
        else
          match comm_receive_message cfg s name slot default with
          | (s1, .error e) => (s1, .error e)
          | (s1, .ok msg) =>
              if !with_params then
                match check_compatibility s1 msg.configuration with
                | .error e => (s1, .error e)
                | .ok _ => (s1, .ok { msg with configuration := none })
              else (s1, .ok msg)

/-- `receive_message(port_name, slot, default)`. -/
def receive_message (cfg : InstanceConfig) (name : String) (slot : Option Nat)
    (default : Option Message) (s : CEState) : CEState × Except Err Message :=
  receive_message_impl cfg false name slot default s

/-- `receive_message_with_parameters(port_name, slot, default)`. -/
def receive_message_with_parameters (cfg : InstanceConfig) (name : String)
    (slot : Option Nat) (default : Option Message) (s : CEState) :
    CEState × Except Err Message :=
  receive_message_impl cfg true name slot default s

/-- A heap of Message objects, modelling Python object identity for the
frame-effect claim about `send_message`: the caller's message is a
reference into the heap, `copy` allocates a fresh cell, attribute
assignment mutates one cell. -/
structure Heap : Type where
  msgs : List Message
deriving DecidableEq

/-- Dereference a heap cell. -/
def Heap.get (h : Heap) (i : Nat) : Option Message := h.msgs.get? i

/-- Mutate a heap cell in place. -/
def Heap.put (h : Heap) (i : Nat) (m : Message) : Heap := ⟨h.msgs.set i m⟩

/-- Allocate a fresh heap cell (Python `copy(message)`); returns the
heap and the new reference. -/
def Heap.alloc (h : Heap) (m : Message) : Heap × Nat :=
  (⟨h.msgs ++ [m]⟩, h.msgs.length)

/-- `send_message(port_name, message, slot)`: check the port exists; if
the caller's message has no configuration, copy it, attach the current
overlay to the copy and hand the copy to the communicator, otherwise
hand over the caller's message itself.  Returns the heap after the call
and the reference handed to the communicator. -/
def send_message (cfg : InstanceConfig) (s : CEState) (h : Heap)
    (name : String) (ref : Nat) : Except Err (Heap × Nat) :=
  if !port_exists cfg name then .error .valueError
  else
    match h.get ref with
    | none => .error .valueError
    | some m =>
        if m.configuration matches none then
          let hr := h.alloc m
          .ok (hr.1.put hr.2 { m with configuration := some s.overlay }, hr.2)
        else .ok (h, ref)

/-- A conduit of the topology: a directed edge between two kernel
ports. -/
structure Conduit : Type where
  sender_kernel : String
  sender_port : String
  receiver_kernel : String
  receiver_port : String
deriving DecidableEq

/-- An instance name: kernel plus multi-dimensional index. -/
abbrev InstanceName := String × List Nat

/-- Modelled from the spec: the manager's topology store (declared
compute elements with their multiplicity vectors, and the conduits); the
manager server source is not among the given files. -/
structure TopologyStore : Type where
  kernels : List (String × List Nat)
  conduits : List Conduit
deriving DecidableEq

/-- Modelled from the spec: the manager's instance registry, mapping a
registered instance name to its network locations. -/
structure InstanceRegistry : Type where
  entries : List (InstanceName × List String)
deriving DecidableEq

/-- The result of a RequestPeers call.  The error carries the requested
name, which the real server embeds in its error message. -/
inductive PeerStatus : Type
  | success (conduits : List Conduit) (peer_dims : List (String × List Nat))
      (peer_locations : List (InstanceName × List String))
  | pending
  | error (name : InstanceName)
deriving DecidableEq

/-- Modelled from the spec: the conduits incident to any port of the
given kernel. -/
def incident_conduits (t : TopologyStore) (kernel : String) : List Conduit :=
  t.conduits.filter
    (fun c => c.sender_kernel = kernel || c.receiver_kernel = kernel)

/-- Modelled from the spec: the peer kernels of a kernel — for every
incident conduit, the kernel at the other end. -/
def peer_kernels (t : TopologyStore) (kernel : String) : List String :=
  ((incident_conduits t kernel).map
    (fun c => if c.sender_kernel = kernel then c.receiver_kernel
              else c.sender_kernel)).dedup

/-- Expansion of a multiplicity vector into the full Cartesian index
space (`elements_for_model` in the spec). -/
def expand_dims : List Nat → List (List Nat)
  | [] => [[]]
  | n :: rest =>
      ((List.range n).map (fun i => (expand_dims rest).map
        (fun idx => i :: idx))).flatten

/-- Modelled from the spec: all concrete peer instances of a kernel —
for each peer kernel, its multiplicity vector expanded to instance
names. -/
def peer_instances (t : TopologyStore) (kernel : String) :
    List InstanceName :=
  ((peer_kernels t kernel).map (fun k =>
    (expand_dims ((alGet t.kernels k).getD [])).map
      (fun idx => ((k, idx) : InstanceName)))).flatten

/-- Modelled from the spec (section 4.3, RequestPeers; the manager
server source is not among the given files): ERROR carrying the
requested name if its kernel is not declared in the topology; PENDING
if any concrete peer instance is not yet registered; otherwise SUCCESS
with the incident conduits, each peer kernel's multiplicity vector and
each concrete peer instance's registered locations. -/
def request_peers (t : TopologyStore) (r : InstanceRegistry)
    (name : InstanceName) : PeerStatus :=
  if (alGet t.kernels name.1).isNone then .error name
  else
    let pis := peer_instances t name.1
    if pis.all (fun i => (alGet r.entries i).isSome) then
      .success (incident_conduits t name.1)
        ((peer_kernels t name.1).map
          (fun k => (k, (alGet t.kernels k).getD [])))
        (pis.map (fun i => (i, (alGet r.entries i).getD [])))
    else .pending

/- ------------------------------------------------------------------ -/
/- Concrete fixtures                                                   -/
/- ------------------------------------------------------------------ -/

/-- A connected vector F_INIT port of length 2. -/
def vport : Port := ⟨.F_INIT, true, 2, true⟩

/-- An instance with one connected vector F_INIT port `in` and no
connected `muscle_parameters_in`. -/
def vcfg : InstanceConfig := ⟨[("in", vport)], false⟩

/-- The message a peer sent to slot 0 of port `in`. -/
def m_slot0 : Message := ⟨0, none, .value 10, some Configuration.empty⟩

/-- The message a peer sent to slot 1 of port `in`. -/
def m_slot1 : Message := ⟨0, none, .value 11, some Configuration.empty⟩

/-- A first message incorrectly addressed without a slot. -/
def m_noslot0 : Message := ⟨0, none, .value 20, some Configuration.empty⟩

/-- A second message incorrectly addressed without a slot. -/
def m_noslot1 : Message := ⟨0, none, .value 21, some Configuration.empty⟩

/-- State in which the peers' messages for the vector port `in` sit in
the slot-addressed queues, as the spec's addressing prescribes. -/
def slotted_state : CEState :=
  ⟨[(("in", some 0), [m_slot0]), (("in", some 1), [m_slot1])],
    Configuration.empty, Configuration.empty, true, []⟩

/-- State in which, additionally, two messages sit in the unslotted
queue of port `in`. -/
def mixed_state : CEState :=
  ⟨[(("in", none), [m_noslot0, m_noslot1]),
    (("in", some 0), [m_slot0]), (("in", some 1), [m_slot1])],
    Configuration.empty, Configuration.empty, true, []⟩

/-- C1: During reuse_instance, for every connected vector F_INIT port,
the instance receives slot 0 first and then slots 1..length-1, and the
f_init cache entry `(port, slot)` is the message received on that slot.
REFUTED BY THE CODE: the inner `pre_receive` calls
`communicator.receive_message(port_name)` without passing the slot, so
every receive asks for `("in", None)`.  With the peers' messages sitting
at the slot-addressed queues the pre-receive blocks forever instead of
receiving them; and when unslotted messages are present, the cache entry
for slot 1 is the second unslotted message, not the message of slot 1,
whose queue stays untouched. -/
theorem c1_pre_receive_ignores_slot :
    (pre_receive_f_init vcfg true slotted_state).2 = .error .blocked
    ∧ alGet (pre_receive_f_init vcfg true mixed_state).1.f_init_cache
        ("in", some 1) = some { m_noslot1 with configuration := none }
    ∧ alGet (pre_receive_f_init vcfg true mixed_state).1.queues
        ("in", some 1) = some [m_slot1]
    ∧ ({ m_noslot1 with configuration := none } : Message) ≠ m_slot1 := by
  refine ⟨by decide, by decide, by decide, by decide⟩

/-- Cached (not yet user-consumed) F_INIT messages of the vector port
`in`, with a non-ClosePort head slot. -/
def cached_state : CEState :=
  ⟨[], Configuration.empty, Configuration.empty, false,
    [(("in", some 0), ⟨0, none, .value 5, none⟩),
     (("in", some 1), ⟨0, none, .value 6, none⟩)]⟩

/-- C2: On the no-reuse path, for every F_INIT port whose cache holds
the head slot, the scalar or vector drain runs when the head payload is
not ClosePort, and all cached entries of the port are discarded without
error.  REFUTED BY THE CODE: `__close_incoming_ports` skips F_INIT
ports (`pass`), so the close protocol leaves the cache untouched and
performs no drain; and `__drain_f_init_port` itself, if it were invoked,
deletes the cache key `(port, 0)` and then deletes keys
`(port, 0) .. (port, length-1)`, hitting the already-removed key 0 and
raising a KeyError instead of discarding the entries without error. -/
theorem c2_close_protocol_skips_f_init :
    close_ports vcfg cached_state = (cached_state, .ok ())
    ∧ cached_state.f_init_cache ≠ []
    ∧ (drain_f_init_port vcfg cached_state "in").2 = .error .keyError := by
  refine ⟨by decide, by decide, by decide⟩

/- ------------------------------------------------------------------ -/
/- Association-list lemmas                                             -/
/- ------------------------------------------------------------------ -/

theorem alGet_alSet_self {α β : Type} [DecidableEq α] (l : List (α × β))
    (k : α) (v : β) : alGet (alSet l k v) k = some v := by
  induction l with
  | nil => simp [alGet, alSet]
  | cons kv rest ih =>
      obtain ⟨k1, v1⟩ := kv
      by_cases h : k1 = k
      · simp [alSet, h, alGet]
      · simp [alSet, h, alGet, ih]

theorem alGet_alSet_ne {α β : Type} [DecidableEq α] (l : List (α × β))
    (k a : α) (v : β) (h : k ≠ a) : alGet (alSet l k v) a = alGet l a := by
  induction l with
  | nil => simp [alGet, alSet, h]
  | cons kv rest ih =>
      obtain ⟨k1, v1⟩ := kv
      by_cases h1 : k1 = k
      · simp [alSet, h1, alGet, h]
      · simp only [alSet, if_neg h1, alGet]
        by_cases h2 : k1 = a
        · simp [h2]
        · simp [h2, ih]

theorem alGet_eq_none_of_not_mem {α β : Type} [DecidableEq α]
    (l : List (α × β)) (k : α) (h : k ∉ l.map Prod.fst) :
    alGet l k = none := by
  induction l with
  | nil => simp [alGet]
  | cons kv rest ih =>
      obtain ⟨k1, v1⟩ := kv
      simp only [List.map_cons, List.mem_cons] at h
      push_neg at h
      have hk : ¬ k1 = k := fun he => h.1 he.symm
      simp [alGet, hk, ih h.2]

theorem alGet_of_mem_nodup {α β : Type} [DecidableEq α]
    (l : List (α × β)) (k : α) (v : β)
    (hnd : (l.map Prod.fst).Nodup) (hmem : (k, v) ∈ l) :
    alGet l k = some v := by
  induction l with
  | nil => simp at hmem
  | cons kv rest ih =>
      obtain ⟨k1, v1⟩ := kv
      simp only [List.map_cons, List.nodup_cons] at hnd
      rcases List.mem_cons.mp hmem with h | h
      · rw [show k1 = k from (Prod.mk.injEq .. ▸ h.symm).1,
          show v1 = v from (Prod.mk.injEq .. ▸ h.symm).2]
        simp [alGet]
      · have hk1 : k1 ≠ k := by
          intro he
          exact hnd.1 (he ▸ List.mem_map_of_mem Prod.fst h)
        simp [alGet, hk1, ih hnd.2 h]

theorem alGet_alErase_self {α β : Type} [DecidableEq α]
    (l : List (α × β)) (k : α) (hnd : (l.map Prod.fst).Nodup) :
    alGet (alErase l k) k = none := by
  induction l with
  | nil => simp [alGet, alErase]
  | cons kv rest ih =>
      obtain ⟨k1, v1⟩ := kv
      simp only [List.map_cons, List.nodup_cons] at hnd
      by_cases h : k1 = k
      · simpa [alErase, h] using alGet_eq_none_of_not_mem rest k (h ▸ hnd.1)
      · simp [alErase, h, alGet, ih hnd.2]

theorem alGet_alSet_cases {α β : Type} [DecidableEq α]
    (l : List (α × β)) (k a : α) (v w : β)
    (h : alGet (alSet l k v) a = some w) :
    (a = k ∧ w = v) ∨ (a ≠ k ∧ alGet l a = some w) := by
  by_cases ha : a = k
  · subst ha
    rw [alGet_alSet_self] at h
    exact Or.inl ⟨rfl, (Option.some.injEq .. ▸ h).symm⟩
  · rw [alGet_alSet_ne l k a v (fun he => ha he.symm)] at h
    exact Or.inr ⟨ha, h⟩

/-- Membership in `portsFor`. -/
theorem mem_portsFor (cfg : InstanceConfig) (op : Operator) (n : String) :
    n ∈ portsFor cfg op ↔ ∃ p, (n, p) ∈ cfg.ports ∧ p.operator = op := by
  constructor
  · intro h
    rcases List.mem_map.mp h with ⟨⟨n1, p⟩, hmem, he⟩
    rcases List.mem_filter.mp hmem with ⟨hin, hop⟩
    exact ⟨p, he ▸ hin, by simpa using hop⟩
  · rintro ⟨p, hmem, hop⟩
    exact List.mem_map.mpr ⟨(n, p), List.mem_filter.mpr ⟨hmem, by simpa⟩, rfl⟩

/-- A loop whose body never changes the state and always succeeds is
the identity. -/
theorem runList_id {α : Type} (f : α → CEState → CEState × Except Err Unit)
    (l : List α) (hf : ∀ a ∈ l, ∀ s, f a s = (s, .ok ())) :
    ∀ s, runList f l s = (s, .ok ()) := by
  induction l with
  | nil => intro s; rfl
  | cons a rest ih =>
      intro s
      rw [runList, hf a (List.mem_cons_self a rest) s]
      exact ih (fun b hb t => hf b (List.mem_cons_of_mem a hb) t) s

/-- "Queues-only" mutation: everything except the inbound queues is
preserved. -/
def QOnly (s t : CEState) : Prop :=
  t.base = s.base ∧ t.overlay = s.overlay ∧ t.first_run = s.first_run ∧
    t.f_init_cache = s.f_init_cache

theorem qonly_refl (s : CEState) : QOnly s s := ⟨rfl, rfl, rfl, rfl⟩

theorem qonly_trans {s t u : CEState} (h1 : QOnly s t) (h2 : QOnly t u) :
    QOnly s u :=
  ⟨h2.1.trans h1.1, h2.2.1.trans h1.2.1, h2.2.2.1.trans h1.2.2.1,
    h2.2.2.2.trans h1.2.2.2⟩

theorem comm_receive_message_qonly (cfg : InstanceConfig) (s : CEState)
    (name : String) (slot : Option Nat) (default : Option Message) :
    QOnly s (comm_receive_message cfg s name slot default).1 := by
  unfold comm_receive_message
  split
  · exact qonly_refl s
  · split
    · exact ⟨rfl, rfl, rfl, rfl⟩
    · exact qonly_refl s
  · split
    · exact qonly_refl s
    · exact qonly_refl s

theorem drain_incoming_port_qonly (cfg : InstanceConfig) (s : CEState)
    (name : String) : QOnly s (drain_incoming_port cfg s name).1 := by
  unfold drain_incoming_port
  split
  · exact qonly_refl s
  · exact qonly_refl s
  · split
    · exact ⟨rfl, rfl, rfl, rfl⟩
    · exact ⟨rfl, rfl, rfl, rfl⟩

theorem drain_slots_qonly (cfg : InstanceConfig) (name : String)
    (slots : List Nat) : ∀ s, QOnly s (drain_slots cfg name slots s).1 := by
  induction slots with
  | nil => intro s; exact qonly_refl s
  | cons a rest ih =>
      intro s
      rw [drain_slots]
      have hq := comm_receive_message_qonly cfg s name (some a) none
      rcases he : comm_receive_message cfg s name (some a) none with ⟨s1, r⟩
      rw [he] at hq
      cases r with
      | ok m => exact qonly_trans hq (ih s1)
      | error e => exact hq

theorem drain_vector_loop_qonly (cfg : InstanceConfig) (name : String)
    (len : Nat) (q0 : List Message) :
    ∀ s, QOnly s (drain_vector_loop cfg name len q0 s).1 := by
  induction q0 with
  | nil => intro s; exact qonly_refl s
  | cons m rest ih =>
      intro s
      rw [drain_vector_loop]
      have hq := drain_slots_qonly cfg name ((List.range' 1 (len - 1)).map id) s
      rcases he : drain_slots cfg name ((List.range' 1 (len - 1)).map id) s
        with ⟨s1, r⟩
      rw [he] at hq
      cases r with
      | ok u =>
          by_cases hc : m.data.isClose
          · simp only [hc, if_true]
            exact hq
          · simp only [hc, Bool.false_eq_true, if_false]
            exact qonly_trans hq (ih s1)
      | error e => exact hq

theorem drain_incoming_vector_port_qonly (cfg : InstanceConfig)
    (s : CEState) (name : String) :
    QOnly s (drain_incoming_vector_port cfg s name).1 := by
  unfold drain_incoming_vector_port
  have hbase : QOnly s { s with queues := alSet s.queues (name, some 0) [] } :=
    ⟨rfl, rfl, rfl, rfl⟩
  have hq := drain_vector_loop_qonly cfg name (registered_length cfg name)
    ((alGet s.queues (name, some 0)).getD [])
    { s with queues := alSet s.queues (name, some 0) [] }
  rcases he : drain_vector_loop cfg name (registered_length cfg name)
      ((alGet s.queues (name, some 0)).getD [])
      { s with queues := alSet s.queues (name, some 0) [] } with ⟨s1, r⟩
  rw [he] at hq
  cases r with
  | ok rest => exact qonly_trans hbase ⟨hq.1, hq.2.1, hq.2.2.1, hq.2.2.2⟩
  | error e => exact qonly_trans hbase hq

/-- A loop whose body only mutates queues only mutates queues. -/
theorem runList_qonly {α : Type}
    (f : α → CEState → CEState × Except Err Unit)
    (hf : ∀ a s, QOnly s (f a s).1) (l : List α) :
    ∀ s, QOnly s (runList f l s).1 := by
  induction l with
  | nil => intro s; exact qonly_refl s
  | cons a rest ih =>
      intro s
      rw [runList]
      have hq := hf a s
      rcases he : f a s with ⟨s1, r⟩
      rw [he] at hq
      cases r with
      | ok u => exact qonly_trans hq (ih s1)
      | error e => exact hq

theorem close_incoming_one_qonly (cfg : InstanceConfig) (name : String)
    (s : CEState) : QOnly s (close_incoming_one cfg name s).1 := by
  unfold close_incoming_one
  split
  · exact qonly_refl s
  · split
    · exact qonly_refl s
    · split
      · exact drain_incoming_port_qonly cfg s name
      · exact drain_incoming_vector_port_qonly cfg s name

theorem close_incoming_group_qonly (cfg : InstanceConfig)
    (ol : Operator × List String) (s : CEState) :
    QOnly s (close_incoming_group cfg ol s).1 := by
  unfold close_incoming_group
  split
  · exact qonly_refl s
  · split
    · exact runList_qonly _ (fun a t => close_incoming_one_qonly cfg a t) ol.2 s
    · exact qonly_refl s

theorem close_ports_qonly (cfg : InstanceConfig) (s : CEState) :
    QOnly s (close_ports cfg s).1 :=
  runList_qonly _ (fun a t => close_incoming_group_qonly cfg a t)
    (list_ports cfg) s

/- ------------------------------------------------------------------ -/
/- C4: receiving the parameter overlay                                 -/
/- ------------------------------------------------------------------ -/

/-- C4: On entry, reuse_instance receives one message on
`muscle_parameters_in` (empty configuration as default); a ClosePort
payload makes the reuse answer false; a Configuration payload is merged
entry-by-entry over the configuration attached to the message and
becomes the current overlay; any other payload type raises the protocol
RuntimeError and leaves the overlay unchanged. -/
theorem c4_receive_parameters (cfg : InstanceConfig) (s : CEState)
    (m : Message) (q : List Message)
    (hconn : cfg.params_in_connected = true)
    (hq : alGet s.queues ("muscle_parameters_in", none) = some (m :: q)) :
    (m.data = .closePort →
      receive_parameters cfg s =
        ({ s with queues := alSet s.queues ("muscle_parameters_in", none) q },
          .ok false))
    ∧ (∀ c base, m.data = .config c → m.configuration = some base →
        receive_parameters cfg s =
          ({ s with
              queues := alSet s.queues ("muscle_parameters_in", none) q,
              overlay := c.entries.foldl
                (fun acc kv => acc.setVal kv.1 kv.2) base },
            .ok true))
    ∧ (∀ v, m.data = .value v →
        (receive_parameters cfg s).2 = .error .protocolError
        ∧ (receive_parameters cfg s).1.overlay = s.overlay) := by
  refine ⟨?_, ?_, ?_⟩
  · intro hd
    simp [receive_parameters, comm_receive_message, port_connected_opt,
      hconn, hq, hd]
  · intro c base hd hcfg
    simp [receive_parameters, comm_receive_message, port_connected_opt,
      hconn, hq, hd, hcfg]
  · intro v hd
    simp [receive_parameters, comm_receive_message, port_connected_opt,
      hconn, hq, hd]

/-- An instance whose `muscle_parameters_in` is connected. -/
def pcfg : InstanceConfig := ⟨[], true⟩

/-- A parameters message: data `{x: 2}` over attached configuration
`{x: 1, y: 3}`. -/
def pmsg : Message :=
  ⟨0, none, .config ⟨[("x", 2)]⟩, some ⟨[("x", 1), ("y", 3)]⟩⟩

/-- A state holding one pending parameters message. -/
def pstate : CEState :=
  ⟨[(("muscle_parameters_in", none), [pmsg])],
    Configuration.empty, Configuration.empty, true, []⟩

/-- C4 witness: at the concrete instance, the data entries override the
attached configuration and the merge becomes the overlay. -/
theorem c4_receive_parameters_witness :
    receive_parameters pcfg pstate =
      ({ pstate with
          queues := alSet pstate.queues ("muscle_parameters_in", none) [],
          overlay := ⟨[("x", 2), ("y", 3)]⟩ }, .ok true) := by
  rw [(c4_receive_parameters pcfg pstate pmsg [] rfl rfl).2.1
    ⟨[("x", 2)]⟩ ⟨[("x", 1), ("y", 3)]⟩ rfl rfl]
  decide

/- ------------------------------------------------------------------ -/
/- C7: receive-twice and unconnected defaults on F_INIT ports          -/
/- ------------------------------------------------------------------ -/

/-- C7: After the cached message for a connected F_INIT `(port, slot)`
has been consumed by a receive, a second `receive_message` on the same
port and slot without an intervening `reuse_instance` raises the
protocol RuntimeError; on an unconnected F_INIT port `receive_message`
returns the given default unchanged, and fails only when no default was
given. -/
theorem c7_receive_twice_and_default (cfg : InstanceConfig) (s : CEState)
    (name : String) (slot : Option Nat) (port : Port)
    (hport : alGet cfg.ports name = some port)
    (hop : port.operator = .F_INIT)
    (hnd : (s.f_init_cache.map Prod.fst).Nodup) :
    (∀ msg, alGet s.f_init_cache (name, slot) = some msg →
      port.connected = true →
      ∀ d d', (receive_message cfg name slot d
        ((receive_message cfg name slot d' s).1)).2 = .error .receiveTwice)
    ∧ (alGet s.f_init_cache (name, slot) = none → port.connected = false →
        (∀ d, receive_message cfg name slot (some d) s = (s, .ok d))
        ∧ receive_message cfg name slot none s =
            (s, .error .notConnectedNoDefault)) := by
  constructor
  · intro msg hcache hconn d d'
    have herase := alGet_alErase_self s.f_init_cache (name, slot) hnd
    simp [receive_message, receive_message_impl, port_exists, hport, hop,
      hcache, hconn, herase]
  · intro hcache hconn
    constructor
    · intro d
      simp [receive_message, receive_message_impl, port_exists, hport, hop,
        hcache, hconn]
    · simp [receive_message, receive_message_impl, port_exists, hport, hop,
        hcache, hconn]

/-- An unconnected scalar F_INIT port. -/
def uport : Port := ⟨.F_INIT, false, 1, false⟩

/-- An instance with one unconnected scalar F_INIT port `init`. -/
def ucfg : InstanceConfig := ⟨[("init", uport)], false⟩

/-- An empty dynamic state. -/
def empty_state : CEState :=
  ⟨[], Configuration.empty, Configuration.empty, true, []⟩

/-- A connected scalar F_INIT port. -/
def cport : Port := ⟨.F_INIT, false, 1, true⟩

/-- An instance with one connected scalar F_INIT port `fin`. -/
def ccfg : InstanceConfig := ⟨[("fin", cport)], false⟩

/-- A cached F_INIT message without attached configuration. -/
def cached_msg : Message := ⟨0, none, .value 7, none⟩

/-- A state whose f_init cache holds one message for `fin`. -/
def cstate : CEState :=
  ⟨[], Configuration.empty, Configuration.empty, true,
    [(("fin", none), cached_msg)]⟩

/-- A default message without configuration. -/
def plain_default : Message := ⟨0, none, .value 3, none⟩

/-- C7 witness: the receive-twice error and the default behaviour at
concrete instances. -/
theorem c7_receive_twice_and_default_witness :
    (receive_message ccfg "fin" none none
      ((receive_message ccfg "fin" none none cstate).1)).2 =
        .error .receiveTwice
    ∧ receive_message ucfg "init" none (some plain_default) empty_state =
        (empty_state, .ok plain_default)
    ∧ receive_message ucfg "init" none none empty_state =
        (empty_state, .error .notConnectedNoDefault) := by
  refine ⟨?_, ?_, ?_⟩
  · exact (c7_receive_twice_and_default ccfg cstate "fin" none cport rfl rfl
      (by decide)).1 cached_msg rfl rfl none none
  · exact ((c7_receive_twice_and_default ucfg empty_state "init" none uport
      rfl rfl (by decide)).2 rfl rfl).1 plain_default
  · exact ((c7_receive_twice_and_default ucfg empty_state "init" none uport
      rfl rfl (by decide)).2 rfl rfl).2

/- ------------------------------------------------------------------ -/
/- C10: send_message does not mutate the caller's message              -/
/- ------------------------------------------------------------------ -/

theorem list_set_append_length {α : Type} (l : List α) (a b : α) :
    (l ++ [a]).set l.length b = l ++ [b] := by
  induction l with
  | nil => rfl
  | cons x xs ih => simp [List.set, ih]

/-- C10: `send_message` never mutates the caller's Message: if the
message has no configuration, a copy is allocated, the current overlay
is attached to the copy and the copy (a fresh reference) is handed to
the communicator, so the caller's heap cell is untouched; a message
already carrying a configuration is handed over unchanged. -/
theorem c10_send_message_frame (cfg : InstanceConfig) (s : CEState)
    (h : Heap) (name : String) (ref : Nat) (m : Message)
    (hport : port_exists cfg name = true)
    (hm : h.get ref = some m) :
    (m.configuration = none →
      send_message cfg s h name ref =
        .ok (⟨h.msgs ++ [{ m with configuration := some s.overlay }]⟩,
          h.msgs.length)
      ∧ Heap.get ⟨h.msgs ++ [{ m with configuration := some s.overlay }]⟩ ref
          = some m
      ∧ h.msgs.length ≠ ref)
    ∧ (∀ c, m.configuration = some c →
        send_message cfg s h name ref = .ok (h, ref)) := by
  have hlt : ref < h.msgs.length := (List.get?_eq_some.mp hm).choose
  constructor
  · intro hc
    refine ⟨?_, ?_, ?_⟩
    · simp [send_message, hport, hm, hc, Heap.alloc, Heap.put,
        list_set_append_length]
    · have hax : (h.msgs ++
          [{ m with configuration := some s.overlay }]).get? ref =
          h.msgs.get? ref := List.get?_append hlt
      simp only [Heap.get, hax]
      exact hm
    · exact fun he => absurd (he ▸ hlt) (lt_irrefl ref)
  · intro c hc
    simp [send_message, hport, hm, hc]

/-- The caller's message for the C10 witness: no configuration. -/
def w10_msg : Message := ⟨1, none, .value 4, none⟩

/-- A one-cell heap holding the caller's message. -/
def w10_heap : Heap := ⟨[w10_msg]⟩

/-- A state with a non-empty overlay. -/
def w10_state : CEState := ⟨[], Configuration.empty, ⟨[("p", 9)]⟩, true, []⟩

/-- An instance with one O_F port `out`. -/
def w10_cfg : InstanceConfig := ⟨[("out", ⟨.O_F, false, 1, true⟩)], false⟩

/-- C10 witness: at the concrete input, the communicator receives a
fresh copy with the overlay attached while the caller's cell still
holds the original message. -/
theorem c10_send_message_frame_witness :
    send_message w10_cfg w10_state w10_heap "out" 0 =
      .ok (⟨w10_heap.msgs ++
        [{ w10_msg with configuration := some w10_state.overlay }]⟩,
        w10_heap.msgs.length)
    ∧ Heap.get ⟨w10_heap.msgs ++
        [{ w10_msg with configuration := some w10_state.overlay }]⟩ 0 =
        some w10_msg := by
  have hc := (c10_send_message_frame w10_cfg w10_state w10_heap "out" 0
    w10_msg (by decide) rfl).1 rfl
  exact ⟨hc.1, hc.2.1⟩

/- ------------------------------------------------------------------ -/
/- C8: configuration stripping on receive                              -/
/- ------------------------------------------------------------------ -/

/-- A default message that carries a configuration. -/
def d_with_config : Message := ⟨0, none, .value 1, some ⟨[("x", 1)]⟩⟩

/-- C8 counterexample: NOT every message returned by `receive_message`
has configuration None — on an unconnected F_INIT port the default is
returned exactly as passed, configuration included. -/
theorem c8_counterexample_default_keeps_configuration :
    receive_message ucfg "init" none (some d_with_config) empty_state =
      (empty_state, .ok d_with_config)
    ∧ d_with_config.configuration ≠ none := by
  exact ⟨by decide, by decide⟩

/-- Every cached F_INIT message has had its configuration stripped. -/
def CacheStripped (s : CEState) : Prop :=
  ∀ k msg, alGet s.f_init_cache k = some msg → msg.configuration = none

theorem apply_overlay_cache (s : CEState) (m : Message) :
    (apply_overlay s m).f_init_cache = s.f_init_cache := by
  unfold apply_overlay
  split
  · split <;> rfl
  · rfl

theorem apply_overlay_queues (s : CEState) (m : Message) :
    (apply_overlay s m).queues = s.queues := by
  unfold apply_overlay
  split
  · split <;> rfl
  · rfl

/-- A loop invariant holds at the end of a successful loop. -/
theorem runList_ok_invariant {α : Type}
    (f : α → CEState → CEState × Except Err Unit) (P : CEState → Prop)
    (hf : ∀ a s s1, P s → f a s = (s1, .ok ()) → P s1) :
    ∀ l s s1, P s → runList f l s = (s1, .ok ()) → P s1 := by
  intro l
  induction l with
  | nil =>
      intro s s1 hP hrun
      rw [runList] at hrun
      cases hrun
      exact hP
  | cons a rest ih =>
      intro s s1 hP hrun
      rw [runList] at hrun
      rcases he : f a s with ⟨t, r⟩
      rw [he] at hrun
      cases r with
      | ok u => exact ih t s1 (hf a s t hP he) hrun
      | error e => cases hrun

theorem pre_receive_stripped (cfg : InstanceConfig) (name : String)
    (slot : Option Nat) (s s1 : CEState) (hP : CacheStripped s)
    (hrun : pre_receive cfg true name slot s = (s1, .ok ())) :
    CacheStripped s1 := by
  unfold pre_receive at hrun
  rcases he : comm_receive_message cfg s name none none with ⟨t, r⟩
  rw [he] at hrun
  have htc : t.f_init_cache = s.f_init_cache :=
    by have := comm_receive_message_qonly cfg s name none none
       rw [he] at this
       exact this.2.2.2
  cases r with
  | error e => cases hrun
  | ok msg =>
      simp only [if_true] at hrun
      cases hcc : check_compatibility
          (apply_overlay { t with f_init_cache :=
            (alSet t.f_init_cache (name, slot) msg) } msg)
          msg.configuration with
      | ok u =>
          rw [hcc] at hrun
          cases hrun
          intro k msg1 hget
          rw [apply_overlay_cache] at hget
          rcases alGet_alSet_cases _ _ _ _ _ hget with ⟨hk, hv⟩ | ⟨hk, hget1⟩
          · rw [hv]
          · rcases alGet_alSet_cases _ _ _ _ _ hget1 with ⟨hk2, _⟩ | ⟨_, hget2⟩
            · exact absurd hk2 hk
            · exact hP k msg1 (htc ▸ hget2)
      | error e =>
          rw [hcc] at hrun
          cases hrun

theorem pre_receive_port_stripped (cfg : InstanceConfig) (name : String)
    (s s1 : CEState) (hP : CacheStripped s)
    (hrun : pre_receive_port cfg true name s = (s1, .ok ())) :
    CacheStripped s1 := by
  unfold pre_receive_port at hrun
  rcases hg : alGet cfg.ports name with _ | port
  · rw [hg] at hrun
    cases hrun
  · rw [hg] at hrun
    by_cases hc : port.connected
    · simp only [hc, Bool.not_true, Bool.false_eq_true, if_false] at hrun
      by_cases hv : port.is_vector
      · simp only [hv, Bool.not_true, Bool.false_eq_true, if_false] at hrun
        rcases he : pre_receive cfg true name (some 0) s with ⟨t, r⟩
        rw [he] at hrun
        cases r with
        | ok u =>
            exact runList_ok_invariant _ CacheStripped
              (fun a u1 u2 hPu hru =>
                pre_receive_stripped cfg name (some a) u1 u2 hPu hru)
              _ t s1 (pre_receive_stripped cfg name (some 0) s t hP he) hrun
        | error e => cases hrun
      · simp only [hv, Bool.not_false, if_true] at hrun
        exact pre_receive_stripped cfg name none s s1 hP hrun
    · simp only [hc, Bool.not_false, if_true] at hrun
      cases hrun
      exact hP

theorem pre_receive_f_init_stripped (cfg : InstanceConfig) (s s1 : CEState)
    (hrun : pre_receive_f_init cfg true s = (s1, .ok ())) :
    CacheStripped s1 := by
  unfold pre_receive_f_init at hrun
  refine runList_ok_invariant _ CacheStripped
    (fun a u u1 hPu hru => pre_receive_port_stripped cfg a u u1 hPu hru)
    _ _ s1 ?_ hrun
  intro k msg hget
  simp [alGet] at hget

/-- C8 amended: a message received by `receive_message` on a non-F_INIT
port has its configuration stripped to None; after `reuse_instance` ran
with `apply_overlay` true, every cached F_INIT message has configuration
None (so F_INIT receives return stripped messages too);
`receive_message_with_parameters` on an F_INIT port returns the cached
message, whose configuration is then non-None, and fails with a
RuntimeError when the cached message carries no configuration — whereas
a default returned on an unconnected port is passed back verbatim,
configuration included (see the counterexample). -/
theorem c8_configuration_stripping :
    (∀ cfg name slot d s port s1 msg,
        alGet cfg.ports name = some port → port.operator ≠ .F_INIT →
        receive_message cfg name slot d s = (s1, .ok msg) →
        msg.configuration = none)
    ∧ (∀ cfg name slot d s msg port,
        alGet cfg.ports name = some port → port.operator = .F_INIT →
        alGet s.f_init_cache (name, slot) = some msg →
        ((msg.configuration = none →
          (receive_message_with_parameters cfg name slot d s).2 =
            .error .withParamsNoConfig)
         ∧ (∀ c, msg.configuration = some c →
            (receive_message_with_parameters cfg name slot d s).2 =
              .ok msg)))
    ∧ (∀ cfg s s1 k msg,
        pre_receive_f_init cfg true s = (s1, .ok ()) →
        alGet s1.f_init_cache k = some msg → msg.configuration = none) := by
  refine ⟨?_, ?_, ?_⟩
  · intro cfg name slot d s port s1 msg hport hop hrun
    simp only [receive_message, receive_message_impl] at hrun
    have hex : port_exists cfg name = true := by simp [port_exists, hport]
    rw [hex] at hrun
    rw [hport] at hrun
    simp only [Bool.not_true, Bool.false_eq_true, if_false, hop] at hrun
    rcases he : comm_receive_message cfg s name slot d with ⟨t, r⟩
    rw [he] at hrun
    cases r with
    | error e => simp at hrun
    | ok m2 =>
        simp only [Bool.not_false, if_true] at hrun
        cases hcc : check_compatibility t m2.configuration with
        | ok u =>
            rw [hcc] at hrun
            simp only [Prod.mk.injEq, Except.ok.injEq] at hrun
            rw [← hrun.2]
        | error e =>
            rw [hcc] at hrun
            simp at hrun
  · intro cfg name slot d s msg port hport hop hcache
    constructor
    · intro hc
      simp [receive_message_with_parameters, receive_message_impl,
        port_exists, hport, hop, hcache, hc]
    · intro c hc
      simp [receive_message_with_parameters, receive_message_impl,
        port_exists, hport, hop, hcache, hc]
  · intro cfg s s1 k msg hrun hget
    exact pre_receive_f_init_stripped cfg s s1 hrun k msg hget

/-- A connected scalar S-operator port. -/
def sport : Port := ⟨.S, false, 1, true⟩

/-- An instance with one connected S port `sin`. -/
def scfg : InstanceConfig := ⟨[("sin", sport)], false⟩

/-- A pending message on `sin` carrying the (empty) overlay. -/
def s_msg : Message := ⟨0, none, .value 2, some Configuration.empty⟩

/-- A state with one pending message on `sin`. -/
def sstate : CEState :=
  ⟨[(("sin", none), [s_msg])], Configuration.empty, Configuration.empty,
    true, []⟩

/-- The stripped form of `s_msg`. -/
def s_msg_stripped : Message := ⟨0, none, .value 2, none⟩

/-- C8 witness: at concrete inputs, the non-F_INIT receive strips the
configuration, and `receive_message_with_parameters` fails on a cached
message without configuration. -/
theorem c8_configuration_stripping_witness :
    (receive_message scfg "sin" none none sstate).2 = .ok s_msg_stripped
    ∧ s_msg_stripped.configuration = none
    ∧ (receive_message_with_parameters ccfg "fin" none none cstate).2 =
        .error .withParamsNoConfig := by
  refine ⟨by decide, ?_, ?_⟩
  · exact c8_configuration_stripping.1 scfg "sin" none none sstate
      sport (receive_message scfg "sin" none none sstate).1
      s_msg_stripped rfl (by decide) (by decide)
  · exact (c8_configuration_stripping.2.1 ccfg "fin" none none cstate
      cached_msg cport rfl rfl rfl).1 rfl

/- ------------------------------------------------------------------ -/
/- C5: overlay application and the parallel universe check             -/
/- ------------------------------------------------------------------ -/

theorem apply_overlay_overlay (s : CEState) (m : Message) :
    (apply_overlay s m).overlay =
      if s.overlay.size = 0 then m.configuration.getD s.overlay
      else s.overlay := by
  unfold apply_overlay
  by_cases h : s.overlay.size = 0
  · simp only [h, if_true]
    cases m.configuration <;> simp
  · simp [h]

theorem pre_receive_fst_overlay (cfg : InstanceConfig) (s s1 : CEState)
    (name : String) (slot : Option Nat) (msg : Message)
    (hrecv : comm_receive_message cfg s name none none = (s1, .ok msg)) :
    (pre_receive cfg true name slot s).1.overlay =
      (apply_overlay { s1 with f_init_cache :=
        (alSet s1.f_init_cache (name, slot) msg) } msg).overlay := by
  simp only [pre_receive, hrecv]
  cases hcc : check_compatibility
      (apply_overlay { s1 with f_init_cache :=
        (alSet s1.f_init_cache (name, slot) msg) } msg)
      msg.configuration with
  | ok u => simp [hcc]
  | error e => simp [hcc]

theorem pre_receive_snd (cfg : InstanceConfig) (s s1 : CEState)
    (name : String) (slot : Option Nat) (msg : Message)
    (hrecv : comm_receive_message cfg s name none none = (s1, .ok msg)) :
    (pre_receive cfg true name slot s).2 =
      match msg.configuration with
      | none => .ok ()
      | some c =>
          if dictEq (pre_receive cfg true name slot s).1.overlay c
          then .ok () else .error .parallelUniverse := by
  have hova := pre_receive_fst_overlay cfg s s1 name slot msg hrecv
  cases hc : msg.configuration with
  | none =>
      simp [pre_receive, hrecv, check_compatibility, hc]
  | some c =>
      rw [hova]
      by_cases hd : dictEq (apply_overlay { s1 with f_init_cache :=
          (alSet s1.f_init_cache (name, slot) msg) } msg).overlay c = true
      · simp [pre_receive, hrecv, check_compatibility, hc, hd]
      · simp [pre_receive, hrecv, check_compatibility, hc, hd]

/-- C5: With `apply_overlay` true, the overlay is taken from the first
pre-received F_INIT message carrying a (non-empty) configuration only
when the store's overlay is currently empty, and each configuration
received on an F_INIT port must equal the then-current overlay — a
differing configuration makes the pre-receive (and with it
`reuse_instance`) fail with the parallel-universe RuntimeError. -/
theorem c5_overlay_and_parallel_universe (cfg : InstanceConfig)
    (s s1 : CEState) (name : String) (slot : Option Nat) (msg : Message)
    (hrecv : comm_receive_message cfg s name none none = (s1, .ok msg)) :
    (s.overlay.size ≠ 0 →
      (pre_receive cfg true name slot s).1.overlay = s.overlay)
    ∧ (s.overlay.size = 0 → ∀ c, msg.configuration = some c →
        (pre_receive cfg true name slot s).1.overlay = c)
    ∧ (s.overlay.size = 0 → msg.configuration = none →
        (pre_receive cfg true name slot s).1.overlay = s.overlay)
    ∧ (msg.configuration = none →
        (pre_receive cfg true name slot s).2 = .ok ())
    ∧ (∀ c, msg.configuration = some c →
        ((pre_receive cfg true name slot s).2 = .ok () ↔
          dictEq (pre_receive cfg true name slot s).1.overlay c = true)
        ∧ ((pre_receive cfg true name slot s).2 = .ok ()
            ∨ (pre_receive cfg true name slot s).2 =
                .error .parallelUniverse))
    ∧ (∀ s0 t b t1 e, receive_parameters cfg s0 = (t, .ok b) →
        pre_receive_f_init cfg true t = (t1, .error e) →
        reuse_instance cfg true s0 = (t1, .error e)) := by
  have hq := comm_receive_message_qonly cfg s name none none
  rw [hrecv] at hq
  have hov : s1.overlay = s.overlay := hq.2.1
  have hova := pre_receive_fst_overlay cfg s s1 name slot msg hrecv
  rw [apply_overlay_overlay] at hova
  refine ⟨?_, ?_, ?_, ?_, ?_, ?_⟩
  · intro hsz
    rw [hova]
    simp [hov, hsz]
  · intro hsz c hc
    rw [hova]
    simp [hov, hsz, hc]
  · intro hsz hc
    rw [hova]
    simp [hov, hsz, hc]
  · intro hc
    rw [pre_receive_snd cfg s s1 name slot msg hrecv, hc]
  · intro c hc
    rw [pre_receive_snd cfg s s1 name slot msg hrecv, hc]
    constructor
    · by_cases hd :
        dictEq (pre_receive cfg true name slot s).1.overlay c = true
      · simp [hd]
      · simp [hd]
    · by_cases hd :
        dictEq (pre_receive cfg true name slot s).1.overlay c = true
      · simp [hd]
      · simp [hd]
  · intro s0 t b t1 e hparams hpre
    simp only [reuse_instance, hparams, hpre]

/-- A pending F_INIT message whose configuration `{x: 2}` differs from
the store's overlay `{x: 1}`. -/
def w5_msg : Message := ⟨0, none, .value 8, some ⟨[("x", 2)]⟩⟩

/-- A state for the connected F_INIT port `fin`: non-empty overlay
`{x: 1}` and the pending message `w5_msg`. -/
def w5_state : CEState :=
  ⟨[(("fin", none), [w5_msg])], Configuration.empty, ⟨[("x", 1)]⟩,
    true, []⟩

/-- `w5_state` after the communicator receive popped the queue. -/
def w5_state1 : CEState :=
  ⟨[(("fin", none), [])], Configuration.empty, ⟨[("x", 1)]⟩, true, []⟩

/-- C5 witness: at the concrete input the pre-receive keeps the
non-empty overlay and fails with the parallel-universe error. -/
theorem c5_overlay_and_parallel_universe_witness :
    (pre_receive ccfg true "fin" none w5_state).1.overlay = ⟨[("x", 1)]⟩
    ∧ (pre_receive ccfg true "fin" none w5_state).2 =
        .error .parallelUniverse := by
  have h := c5_overlay_and_parallel_universe ccfg w5_state w5_state1
    "fin" none w5_msg (by decide)
  have hov1 : (pre_receive ccfg true "fin" none w5_state).1.overlay =
      ⟨[("x", 1)]⟩ := h.1 (by decide)
  refine ⟨hov1, ?_⟩
  have h5 := h.2.2.2.2.1 ⟨[("x", 2)]⟩ rfl
  rcases h5.2 with hok | herr
  · exfalso
    have hde := h5.1.mp hok
    rw [hov1] at hde
    exact absurd hde (by decide)
  · exact herr

/- ------------------------------------------------------------------ -/
/- C3: reuse exactly once without connected inputs                     -/
/- ------------------------------------------------------------------ -/

theorem receive_parameters_unconnected (cfg : InstanceConfig) (s : CEState)
    (hparams : cfg.params_in_connected = false) :
    receive_parameters cfg s =
      ({ s with overlay := Configuration.empty }, .ok true) := by
  simp only [receive_parameters, comm_receive_message, port_connected_opt,
    hparams, default_parameters_message]
  rfl

theorem pre_receive_f_init_unconnected (cfg : InstanceConfig) (s : CEState)
    (ao : Bool) (hnd : (cfg.ports.map Prod.fst).Nodup)
    (hfi : ∀ n p, (n, p) ∈ cfg.ports → p.operator = .F_INIT →
      p.connected = false) :
    pre_receive_f_init cfg ao s = ({ s with f_init_cache := [] }, .ok ()) := by
  unfold pre_receive_f_init
  refine runList_id _ _ ?_ _
  intro n hn t
  rcases (mem_portsFor cfg .F_INIT n).mp hn with ⟨p, hp, hop⟩
  have hget := alGet_of_mem_nodup cfg.ports n p hnd hp
  have hconn := hfi n p hp hop
  simp [pre_receive_port, hget, hconn]

theorem reuse_decision_unconnected (cfg : InstanceConfig)
    (hnd : (cfg.ports.map Prod.fst).Nodup)
    (hfi : ∀ n p, (n, p) ∈ cfg.ports → p.operator = .F_INIT →
      p.connected = false)
    (hparams : cfg.params_in_connected = false) (s : CEState) (b : Bool) :
    reuse_decision cfg b s = (s.first_run, { s with first_run := false }) := by
  have hall : (portsFor cfg .F_INIT).all (fun p => !is_connected cfg p)
      = true := by
    rw [List.all_eq_true]
    intro n hn
    rcases (mem_portsFor cfg .F_INIT n).mp hn with ⟨p, hp, hop⟩
    have hget := alGet_of_mem_nodup cfg.ports n p hnd hp
    simp [is_connected, hget, hfi n p hp hop]
  simp [reuse_decision, hall, hparams]

/-- C3: If none of the instance's F_INIT ports is connected and
`muscle_parameters_in` is not connected, `reuse_instance` answers with
the first-run flag — true on the first call, false on every subsequent
(returning) call — regardless of what the parameters-in step computed.
-/
theorem c3_reuse_exactly_once (cfg : InstanceConfig) (s : CEState)
    (hnd : (cfg.ports.map Prod.fst).Nodup)
    (hfi : ∀ n p, (n, p) ∈ cfg.ports → p.operator = .F_INIT →
      p.connected = false)
    (hparams : cfg.params_in_connected = false) :
    (∀ b, reuse_decision cfg b s = (s.first_run, { s with first_run := false }))
    ∧ (∀ ao, s.first_run = true → reuse_instance cfg ao s =
        ({ s with
            overlay := Configuration.empty,
            first_run := false,
            f_init_cache := [] }, .ok true))
    ∧ (∀ ao s1 b, reuse_instance cfg ao s = (s1, .ok b) →
        b = s.first_run ∧ s1.first_run = false) := by
  have hrp := receive_parameters_unconnected cfg s hparams
  have hpr := fun (ao : Bool) => pre_receive_f_init_unconnected cfg
    { s with overlay := Configuration.empty } ao hnd hfi
  refine ⟨fun b => reuse_decision_unconnected cfg hnd hfi hparams s b,
    ?_, ?_⟩
  · intro ao hfr
    simp only [reuse_instance, hrp, hpr ao,
      reuse_decision_unconnected cfg hnd hfi hparams]
    simp [hfr]
  · intro ao s1 b hrun
    simp only [reuse_instance, hrp, hpr ao,
      reuse_decision_unconnected cfg hnd hfi hparams] at hrun
    cases hfr : s.first_run with
    | true =>
        rw [hfr] at hrun
        simp only [Bool.not_true, Bool.false_eq_true, if_false,
          Prod.mk.injEq, Except.ok.injEq] at hrun
        exact ⟨hrun.2.symm, by rw [← hrun.1]⟩
    | false =>
        rw [hfr] at hrun
        simp only [Bool.not_false, if_true] at hrun
        rcases hcp : close_ports cfg
            { s with
              overlay := Configuration.empty,
              first_run := false,
              f_init_cache := [] } with ⟨s3, r3⟩
        rw [hcp] at hrun
        cases r3 with
        | error e => simp at hrun
        | ok u =>
            simp only [Prod.mk.injEq, Except.ok.injEq] at hrun
            have hq := close_ports_qonly cfg
              { s with
                overlay := Configuration.empty,
                first_run := false,
                f_init_cache := [] }
            rw [hcp] at hq
            exact ⟨hrun.2.symm, hrun.1 ▸ hq.2.2.1⟩

/-- An instance with no ports at all. -/
def nocfg : InstanceConfig := ⟨[], false⟩

/-- The state after the first reuse decision of `empty_state`. -/
def after_first : CEState :=
  ⟨[], Configuration.empty, Configuration.empty, false, []⟩

/-- C3 witness: with no connected inputs the first call answers true
(and flips the flag), the second call answers false. -/
theorem c3_reuse_exactly_once_witness :
    reuse_instance nocfg true empty_state = (after_first, .ok true)
    ∧ (reuse_instance nocfg true after_first).2 = .ok false := by
  have h1 := (c3_reuse_exactly_once nocfg empty_state (by decide)
    (fun n p hp _ => absurd hp (List.not_mem_nil _)) rfl).2.1 true rfl
  exact ⟨h1, by decide⟩

/- ------------------------------------------------------------------ -/
/- C6: one ClosePort per slot of every outgoing port                   -/
/- ------------------------------------------------------------------ -/

/-- Occurrence count of an element in a list. -/
def countEq {α : Type} [DecidableEq α] (x : α) : List α → Nat
  | [] => 0
  | y :: rest => (if y = x then 1 else 0) + countEq x rest

theorem countEq_append {α : Type} [DecidableEq α] (x : α)
    (l1 l2 : List α) : countEq x (l1 ++ l2) = countEq x l1 + countEq x l2 := by
  induction l1 with
  | nil => simp [countEq]
  | cons y rest ih => simp [countEq, ih, Nat.add_assoc]

theorem countEq_eq_zero_of_not_mem {α : Type} [DecidableEq α] (x : α)
    (l : List α) (h : x ∉ l) : countEq x l = 0 := by
  induction l with
  | nil => rfl
  | cons y rest ih =>
      simp only [List.mem_cons] at h
      push_neg at h
      have hy : ¬ y = x := fun he => h.1 he.symm
      simp [countEq, hy, ih h.2]

theorem countEq_eq_one_of_nodup_mem {α : Type} [DecidableEq α] (x : α)
    (l : List α) (hnd : l.Nodup) (h : x ∈ l) : countEq x l = 1 := by
  induction l with
  | nil => cases h
  | cons y rest ih =>
      rw [List.nodup_cons] at hnd
      rcases List.mem_cons.mp h with he | hm
      · subst he
        simp [countEq, countEq_eq_zero_of_not_mem _ rest hnd.1]
      · have hy : ¬ y = x := fun he => hnd.1 (he ▸ hm)
        simp [countEq, hy, ih hnd.2 hm]

theorem countEq_flatten_sum {α : Type} [DecidableEq α] (x : α)
    (L : List (List α)) :
    countEq x L.flatten = (L.map (countEq x)).sum := by
  induction L with
  | nil => rfl
  | cons l rest ih =>
      rw [List.flatten_cons, countEq_append, ih, List.map_cons,
        List.sum_cons]

theorem sum_map_filter_eq {α : Type} (l : List α) (q : α → Bool)
    (g : α → Nat) (h : ∀ a ∈ l, ¬q a = true → g a = 0) :
    ((l.filter q).map g).sum = (l.map g).sum := by
  induction l with
  | nil => rfl
  | cons a rest ih =>
      have ihr := ih (fun b hb hq => h b (List.mem_cons_of_mem a hb) hq)
      by_cases hq : q a = true
      · rw [List.filter_cons_of_pos hq]
        simp [ihr]
      · rw [List.filter_cons_of_neg (by simpa using hq)]
        simp [ihr, h a (List.mem_cons_self a rest) hq]

theorem countEq_close_port_events_ne (n name : String) (x : Option Nat)
    (port : Port) (h : n ≠ name) :
    countEq ((name, x) : QueueKey) (close_port_events n port) = 0 := by
  refine countEq_eq_zero_of_not_mem _ _ ?_
  intro hmem
  unfold close_port_events at hmem
  by_cases hv : port.is_vector
  · rw [if_pos hv] at hmem
    rcases List.mem_map.mp hmem with ⟨i, _, he⟩
    exact h (congrArg Prod.fst he)
  · rw [if_neg hv] at hmem
    rcases List.mem_singleton.mp hmem with he
    exact h (congrArg Prod.fst he.symm)

theorem countEq_out_events_ne (cfg : InstanceConfig) (n name : String)
    (x : Option Nat) (h : n ≠ name) :
    countEq ((name, x) : QueueKey) (out_events cfg n) = 0 := by
  unfold out_events
  cases alGet cfg.ports n with
  | none => rfl
  | some p => exact countEq_close_port_events_ne n name x p h

theorem countEq_out_flatten (cfg : InstanceConfig) (name : String)
    (x : Option Nat) (ns : List String) :
    countEq ((name, x) : QueueKey) ((ns.map (out_events cfg)).flatten) =
      countEq name ns * countEq ((name, x) : QueueKey)
        (out_events cfg name) := by
  induction ns with
  | nil => simp [countEq]
  | cons n rest ih =>
      rw [List.map_cons, List.flatten_cons, countEq_append, ih]
      by_cases hn : n = name
      · subst hn
        simp [countEq, Nat.succ_mul, Nat.add_comm]
      · rw [countEq_out_events_ne cfg n name x hn]
        simp [countEq, hn]

theorem portsFor_nodup (cfg : InstanceConfig) (op : Operator)
    (hnd : (cfg.ports.map Prod.fst).Nodup) : (portsFor cfg op).Nodup :=
  hnd.sublist (List.Sublist.map Prod.fst (List.filter_sublist cfg.ports))

theorem countEq_portsFor_self (cfg : InstanceConfig) (name : String)
    (port : Port) (hnd : (cfg.ports.map Prod.fst).Nodup)
    (hmem : (name, port) ∈ cfg.ports) :
    countEq name (portsFor cfg port.operator) = 1 :=
  countEq_eq_one_of_nodup_mem name _ (portsFor_nodup cfg port.operator hnd)
    ((mem_portsFor cfg port.operator name).mpr ⟨port, hmem, rfl⟩)

theorem countEq_portsFor_ne (cfg : InstanceConfig) (name : String)
    (port : Port) (op : Operator) (hnd : (cfg.ports.map Prod.fst).Nodup)
    (hmem : (name, port) ∈ cfg.ports) (hop : op ≠ port.operator) :
    countEq name (portsFor cfg op) = 0 := by
  refine countEq_eq_zero_of_not_mem name _ ?_
  intro hm
  rcases (mem_portsFor cfg op name).mp hm with ⟨p, hp, hpo⟩
  have h1 := alGet_of_mem_nodup cfg.ports name p hnd hp
  have h2 := alGet_of_mem_nodup cfg.ports name port hnd hmem
  have hpp : p = port := Option.some.inj (h1.symm.trans h2)
  exact hop (by rw [← hpo, hpp])

/-- The total count of close events of one port equals its own events'
count: every other port and operator group contributes nothing. -/
theorem close_outgoing_count (cfg : InstanceConfig) (name : String)
    (port : Port) (x : Option Nat)
    (hnd : (cfg.ports.map Prod.fst).Nodup)
    (hmem : (name, port) ∈ cfg.ports)
    (hsend : port.operator.allows_sending = true) :
    countEq ((name, x) : QueueKey) (close_outgoing_ports cfg) =
      countEq ((name, x) : QueueKey) (close_port_events name port) := by
  have hout : out_events cfg name = close_port_events name port := by
    unfold out_events
    rw [alGet_of_mem_nodup cfg.ports name port hnd hmem]
  rw [close_outgoing_ports, countEq_flatten_sum, List.map_map, list_ports,
    sum_map_filter_eq]
  · rw [List.map_map]
    have hterm : ∀ op : Operator,
        countEq ((name, x) : QueueKey) (out_group cfg (op, portsFor cfg op)) =
        if op.allows_sending then
          countEq name (portsFor cfg op) *
            countEq ((name, x) : QueueKey) (out_events cfg name)
        else 0 := by
      intro op
      by_cases hs : op.allows_sending
      · simp [out_group, hs, countEq_out_flatten]
      · simp [out_group, hs, countEq]
    simp only [operatorKeys, List.map_cons, List.map_nil, List.sum_cons,
      List.sum_nil, Function.comp_apply, hterm]
    cases hop : port.operator with
    | O_I =>
        have h1 := countEq_portsFor_self cfg name port hnd hmem
        rw [hop] at h1
        have h2 := countEq_portsFor_ne cfg name port .O_F hnd hmem
          (by rw [hop]; intro he; cases he)
        simp [operatorKeys, Operator.allows_sending, h1, h2, hout]
    | O_F =>
        have h1 := countEq_portsFor_self cfg name port hnd hmem
        rw [hop] at h1
        have h2 := countEq_portsFor_ne cfg name port .O_I hnd hmem
          (by rw [hop]; intro he; cases he)
        simp [operatorKeys, Operator.allows_sending, h1, h2, hout]
    | F_INIT => rw [hop] at hsend; cases hsend
    | S => rw [hop] at hsend; cases hsend
    | B => rw [hop] at hsend; cases hsend
    | NONE => rw [hop] at hsend; cases hsend
  · intro ol hol hq
    rcases List.mem_map.mp hol with ⟨op, _, he⟩
    simp only [Bool.not_eq_true] at hq
    have hemp : ol.2.isEmpty = true := by
      rcases hb : ol.2.isEmpty
      · rw [hb] at hq; cases hq
      · rfl
    have : ol.2 = [] := List.isEmpty_iff.mp hemp
    simp [Function.comp, out_group, this, countEq]

theorem countEq_vector_events (name : String) (n i : Nat) :
    countEq ((name, some i) : QueueKey)
      ((List.range n).map (fun j => ((name, some j) : QueueKey))) =
      if i < n then 1 else 0 := by
  induction n with
  | zero => simp [countEq]
  | succ k ih =>
      rw [List.range_succ, List.map_append, countEq_append, ih]
      rcases Nat.lt_trichotomy i k with h | h | h
      · simp [countEq, Nat.lt_succ_of_lt h, h, Nat.ne_of_gt h]
      · subst h
        simp [countEq, Nat.lt_irrefl, Nat.lt_succ_self]
      · have h1 : ¬ i < k := Nat.not_lt.mpr (Nat.le_of_lt h)
        have h2 : ¬ i < k + 1 := Nat.not_lt.mpr (Nat.succ_le_of_lt h)
        simp [countEq, h1, h2, Nat.ne_of_lt h]

/-- C6: When `reuse_instance` answers false, the outgoing-close step
sends exactly one ClosePort per slot of every port whose operator
allows sending — one unslotted close for a scalar port, one per slot
`0 .. length-1` for a vector port, and none beyond. -/
theorem c6_close_outgoing_once (cfg : InstanceConfig) (name : String)
    (port : Port) (hnd : (cfg.ports.map Prod.fst).Nodup)
    (hmem : (name, port) ∈ cfg.ports)
    (hsend : port.operator.allows_sending = true) :
    (port.is_vector = true →
      (∀ i, countEq ((name, some i) : QueueKey) (close_outgoing_ports cfg) =
        if i < port.length then 1 else 0)
      ∧ countEq ((name, none) : QueueKey) (close_outgoing_ports cfg) = 0)
    ∧ (port.is_vector = false →
        countEq ((name, none) : QueueKey) (close_outgoing_ports cfg) = 1
        ∧ ∀ i, countEq ((name, some i) : QueueKey)
            (close_outgoing_ports cfg) = 0) := by
  constructor
  · intro hv
    constructor
    · intro i
      rw [close_outgoing_count cfg name port (some i) hnd hmem hsend]
      unfold close_port_events
      rw [if_pos hv]
      exact countEq_vector_events name port.length i
    · rw [close_outgoing_count cfg name port none hnd hmem hsend]
      unfold close_port_events
      rw [if_pos hv]
      refine countEq_eq_zero_of_not_mem _ _ ?_
      intro hm
      rcases List.mem_map.mp hm with ⟨j, _, he⟩
      cases congrArg Prod.snd he
  · intro hv
    constructor
    · rw [close_outgoing_count cfg name port none hnd hmem hsend]
      unfold close_port_events
      rw [if_neg (by simp [hv])]
      simp [countEq]
    · intro i
      rw [close_outgoing_count cfg name port (some i) hnd hmem hsend]
      unfold close_port_events
      rw [if_neg (by simp [hv])]
      simp [countEq]

/-- An instance with a vector O_F port `vout` of length 3 and a scalar
O_I port `sout`, plus an F_INIT port. -/
def w6_cfg : InstanceConfig :=
  ⟨[("vout", ⟨.O_F, true, 3, true⟩), ("sout", ⟨.O_I, false, 1, true⟩),
    ("init", uport)], false⟩

/-- C6 witness: at the concrete instance, each slot of the vector port
and the single slot of the scalar port receive exactly one close, and
no close goes to slot 3. -/
theorem c6_close_outgoing_once_witness :
    countEq (("vout", some 0) : QueueKey) (close_outgoing_ports w6_cfg) = 1
    ∧ countEq (("vout", some 2) : QueueKey) (close_outgoing_ports w6_cfg) = 1
    ∧ countEq (("vout", some 3) : QueueKey) (close_outgoing_ports w6_cfg) = 0
    ∧ countEq (("sout", none) : QueueKey) (close_outgoing_ports w6_cfg) = 1 := by
  have hv := (c6_close_outgoing_once w6_cfg "vout" ⟨.O_F, true, 3, true⟩
    (by decide) (by decide) rfl).1 rfl
  have hs := (c6_close_outgoing_once w6_cfg "sout" ⟨.O_I, false, 1, true⟩
    (by decide) (by decide) rfl).2 rfl
  exact ⟨hv.1 0, hv.1 2, hv.1 3, hs.1⟩

/- ------------------------------------------------------------------ -/
/- C9: request_peers status protocol (spec-modelled)                   -/
/- ------------------------------------------------------------------ -/

theorem mem_expand_dims (dims idx : List Nat) :
    idx ∈ expand_dims dims ↔ List.Forall₂ (· < ·) idx dims := by
  induction dims generalizing idx with
  | nil =>
      simp only [expand_dims, List.mem_singleton]
      constructor
      · intro h
        rw [h]
        exact List.Forall₂.nil
      · intro h
        cases h
        rfl
  | cons n rest ih =>
      simp only [expand_dims, List.mem_flatten, List.mem_map,
        List.mem_range]
      constructor
      · rintro ⟨l, ⟨i, hi, hl⟩, hidx⟩
        rw [← hl] at hidx
        rcases List.mem_map.mp hidx with ⟨tl, htl, he⟩
        rw [← he]
        exact List.Forall₂.cons hi ((ih tl).mp htl)
      · intro h
        cases h with
        | cons hij htl =>
            rename_i j tl
            exact ⟨(expand_dims rest).map (fun idx => j :: idx),
              ⟨j, hij, rfl⟩, List.mem_map.mpr ⟨tl, (ih tl).mpr htl, rfl⟩⟩

/-- C9: `request_peers` answers ERROR (carrying the requested name) when
the kernel is not declared in the topology; PENDING when a concrete peer
instance of the kernel is not yet registered; and otherwise SUCCESS with
the conduits incident to the kernel, each peer kernel's multiplicity
vector, and each concrete peer instance's registered locations — where
the concrete peer instances are exactly the peer kernels' full Cartesian
index spaces. -/
theorem c9_request_peers (t : TopologyStore) (r : InstanceRegistry)
    (name : InstanceName) :
    (alGet t.kernels name.1 = none → request_peers t r name = .error name)
    ∧ (∀ dims, alGet t.kernels name.1 = some dims →
        (∃ i ∈ peer_instances t name.1, alGet r.entries i = none) →
        request_peers t r name = .pending)
    ∧ (∀ dims, alGet t.kernels name.1 = some dims →
        (∀ i ∈ peer_instances t name.1, (alGet r.entries i).isSome = true) →
        request_peers t r name =
          .success (incident_conduits t name.1)
            ((peer_kernels t name.1).map
              (fun k => (k, (alGet t.kernels k).getD [])))
            ((peer_instances t name.1).map
              (fun i => (i, (alGet r.entries i).getD []))))
    ∧ (∀ k idx, ((k, idx) : InstanceName) ∈ peer_instances t name.1 ↔
        k ∈ peer_kernels t name.1 ∧
          List.Forall₂ (· < ·) idx ((alGet t.kernels k).getD [])) := by
  refine ⟨?_, ?_, ?_, ?_⟩
  · intro h
    simp [request_peers, h]
  · intro dims hdecl ⟨i, hi, hnone⟩
    have hall : ((peer_instances t name.1).all
        (fun i => (alGet r.entries i).isSome)) = false := by
      rcases hb : (peer_instances t name.1).all
          (fun i => (alGet r.entries i).isSome)
      · rfl
      · have := List.all_eq_true.mp hb i hi
        rw [hnone] at this
        cases this
    simp [request_peers, hdecl, hall]
  · intro dims hdecl hall
    have hb : ((peer_instances t name.1).all
        (fun i => (alGet r.entries i).isSome)) = true :=
      List.all_eq_true.mpr (fun i hi => hall i hi)
    simp [request_peers, hdecl, hb]
  · intro k idx
    simp only [peer_instances, List.mem_flatten, List.mem_map]
    constructor
    · rintro ⟨l, ⟨k1, hk1, hl⟩, hmem⟩
      rw [← hl] at hmem
      rcases List.mem_map.mp hmem with ⟨ix, hix, he⟩
      have hk : k1 = k := congrArg Prod.fst he
      have hx : ix = idx := congrArg Prod.snd he
      rw [hk] at hk1 hix
      rw [hx] at hix
      exact ⟨hk1, (mem_expand_dims _ idx).mp hix⟩
    · rintro ⟨hk, hf⟩
      exact ⟨(expand_dims ((alGet t.kernels k).getD [])).map
          (fun ix => ((k, ix) : InstanceName)),
        ⟨k, hk, rfl⟩,
        List.mem_map.mpr ⟨idx, (mem_expand_dims _ idx).mpr hf, rfl⟩⟩

/-- The test topology: scalar kernel `macro`, kernel `micro` with
multiplicity `[2, 2]`, conduits `macro.out → micro.in` and
`micro.out → macro.in`. -/
def w9_topology : TopologyStore :=
  ⟨[("macro", []), ("micro", [2, 2])],
    [⟨"macro", "out", "micro", "in"⟩, ⟨"micro", "out", "macro", "in"⟩]⟩

/-- A registry with `macro` and all four `micro` instances. -/
def w9_full : InstanceRegistry :=
  ⟨[(("macro", []), ["direct:macro"]),
    (("micro", [0, 0]), ["direct:micro00"]),
    (("micro", [0, 1]), ["direct:micro01"]),
    (("micro", [1, 0]), ["direct:micro10"]),
    (("micro", [1, 1]), ["direct:micro11"])]⟩

/-- A registry in which `micro[1][1]` has not registered yet. -/
def w9_partial : InstanceRegistry :=
  ⟨[(("macro", []), ["direct:macro"]),
    (("micro", [0, 0]), ["direct:micro00"]),
    (("micro", [0, 1]), ["direct:micro01"]),
    (("micro", [1, 0]), ["direct:micro10"])]⟩

/-- C9 witness: the three statuses at the concrete test topology. -/
theorem c9_request_peers_witness :
    request_peers w9_topology w9_full ("does_not_exist", []) =
      .error ("does_not_exist", [])
    ∧ request_peers w9_topology w9_partial ("macro", []) = .pending
    ∧ request_peers w9_topology w9_full ("macro", []) =
        .success [⟨"macro", "out", "micro", "in"⟩,
            ⟨"micro", "out", "macro", "in"⟩]
          [("micro", [2, 2])]
          [(("micro", [0, 0]), ["direct:micro00"]),
           (("micro", [0, 1]), ["direct:micro01"]),
           (("micro", [1, 0]), ["direct:micro10"]),
           (("micro", [1, 1]), ["direct:micro11"])] := by
  refine ⟨?_, ?_, ?_⟩
  · exact (c9_request_peers w9_topology w9_full
      ("does_not_exist", [])).1 rfl
  · exact (c9_request_peers w9_topology w9_partial ("macro", [])).2.1
      [] rfl ⟨(("micro", [1, 1]) : InstanceName), by decide, by decide⟩
  · rw [(c9_request_peers w9_topology w9_full ("macro", [])).2.2.1
      [] rfl (by decide)]
    decide

end Muscle3
